import Mathlib

/-
Verification development for the Dozer shortcuts cog
(src/dozer/cogs/shortcuts.py). Strings are embedded as lists of
characters; guild-scoped database tables are embedded as in-memory lists
of rows. The read-through ConfigCache of the db layer is assumed coherent
(spec section 4.1: every write is followed by invalidation), so cached
reads are modelled as direct store lookups.
-/

namespace Dozer

/-- Strings of the source program, embedded as lists of characters. -/
abbrev Str := List Char

/-- Python `str.lower`, character by character (ASCII case mapping). -/
def lowerStr (s : Str) : Str := s.map Char.toLower

/-- Python `str.startswith`: the first argument is the candidate leading
segment, the second the full string. -/
def startsWithStr : Str → Str → Bool
  | [], _ => true
  | _ :: _, [] => false
  | p :: ps, c :: cs => p == c && startsWithStr ps cs

/-- Row of the `shortcut_settings` table (class `ShortcutSetting`):
guild id, shortcut trigger `prefix` (named `pfx` here because the source
field name is a Lean keyword), and page size. -/
structure ShortcutSetting where
  guild_id : Nat
  pfx : Str
  page_size : Nat
deriving Repr, DecidableEq

/-- Row of the `shortcuts` table (class `ShortcutEntry`), primary key
(guild_id, name). -/
structure ShortcutEntry where
  guild_id : Nat
  name : Str
  value : Str
  category : Str
deriving Repr, DecidableEq

/-- Modelled from the spec: the db layer (`db.DatabaseTable.update_or_add`,
not under src/) upserts a row keyed by the table uniques, here the primary
key `(guild_id, name)` of spec section 6; an existing row with the same key
is replaced in place, otherwise the row is appended. -/
def upsert (es : List ShortcutEntry) (e : ShortcutEntry) : List ShortcutEntry :=
  if es.any (fun x => x.guild_id == e.guild_id && x.name == e.name) then
    es.map (fun x => if x.guild_id == e.guild_id && x.name == e.name then e else x)
  else es ++ [e]

/-- Modelled from the spec: `ConfigCache.query_one(guild_id, name)` on the
shortcuts table (db layer not under src/); per spec section 4.1 the cache is
read-through and coherent, so it is the first stored row whose exact
`(guild_id, name)` key matches. -/
def query_one (es : List ShortcutEntry) (g : Nat) (n : Str) : Option ShortcutEntry :=
  es.find? (fun x => x.guild_id == g && x.name == n)

/-- Shared upsert pattern of `Shortcuts.set` and `Shortcuts._process_csv_row`:
query the entry by exact key, overwrite value/category if found, otherwise
construct a fresh `ShortcutEntry`, then `update_or_add`. -/
def applyUpsert (es : List ShortcutEntry) (g : Nat) (n v c : Str) : List ShortcutEntry :=
  match query_one es g n with
  | some ent => upsert es { ent with value := v, category := c }
  | none => upsert es { guild_id := g, name := n, value := v, category := c }

/-- Errors raised at the command layer (`BadArgument` in the source). -/
inductive CmdError where
  | badArgument (msg : Str)
deriving Repr, DecidableEq

/-- `Shortcuts.MAX_LEN`. -/
def MAX_LEN : Nat := 20

/-- The category charset check of the source:
`category.replace(" ", "").replace("-", "").replace("_", "").isalnum()`.
Python `isalnum` is false on the empty string and true iff every character
is alphanumeric. -/
def validCategoryChars (category : Str) : Bool :=
  let stripped := category.filter (fun ch => !(ch == ' ' || ch == '-' || ch == '_'))
  !stripped.isEmpty && stripped.all Char.isAlphanum

/-- `Shortcuts.set` (shortcuts.py lines 311-346): requires a settings row,
validates name length, non-null message, category length and charset, then
upserts the entry by exact `(guild_id, name)`. The confirmation reply text
is elided; validation failures are the `BadArgument` messages of the
source. -/
def set (settings : Option ShortcutSetting) (es : List ShortcutEntry)
    (g : Nat) (cmd_name cmd_msg category : Str) :
    Except CmdError (List ShortcutEntry) :=
  match settings with
  | none => .error (.badArgument ("Set a prefix first!".data))
  | some _ =>
    if cmd_name.length > MAX_LEN then
      .error (.badArgument ("command names can only be up to 20 chars long".data))
    else if cmd_msg = [] then
      .error (.badArgument ("cant have null message".data))
    else if category.length > 50 then
      .error (.badArgument ("Category names must be 50 characters or less.".data))
    else if !(validCategoryChars category) then
      .error (.badArgument ("Category names can only contain letters, numbers, spaces, hyphens, and underscores.".data))
    else
      .ok (applyUpsert es g cmd_name cmd_msg category)

/-- `Shortcuts.deletecategory` (shortcuts.py lines 525-563): rejects the
General category case-insensitively before reading any entry; without the
CONFIRM token or with no entry in the category it changes nothing;
otherwise it moves every entry of the category to General. -/
def deletecategory (es : List ShortcutEntry) (g : Nat) (category_name : Str)
    (confirm : Option Str) : Except CmdError (List ShortcutEntry) :=
  if lowerStr category_name = ("general".data) then
    .error (.badArgument ("Cannot delete the General category.".data))
  else
    let ents := es.filter (fun e => e.guild_id == g && e.category == category_name)
    if ents = [] then .ok es
    else if confirm ≠ some ("CONFIRM".data) then .ok es
    else .ok (es.map (fun e =>
      if e.guild_id == g && e.category == category_name then
        { e with category := ("General".data) }
      else e))

/-- Unwraps a command result, keeping the prior entry list on error (an
error raised before any store write leaves the table unchanged). -/
def entriesOrElse (prior : List ShortcutEntry)
    (r : Except CmdError (List ShortcutEntry)) : List ShortcutEntry :=
  match r with
  | .ok es => es
  | .error _ => prior

/-- Primary key of a shortcut row: `(guild_id, name)`, exactly as the
`PRIMARY KEY (guild_id, name)` of the shortcuts table. -/
def entryKey (e : ShortcutEntry) : Nat × Str := (e.guild_id, e.name)

/-- Exact-key uniqueness: no two stored rows share `(guild_id, name)`. -/
def NodupKeys (es : List ShortcutEntry) : Prop := (es.map entryKey).Nodup

/-- Number of entries of guild `g` whose lowercased name is `n`. -/
def lowerCount (es : List ShortcutEntry) (g : Nat) (n : Str) : Nat :=
  (es.filter (fun e => e.guild_id == g && lowerStr e.name == n)).length

lemma entryKey_eq_of_match {x e : ShortcutEntry}
    (h : (x.guild_id == e.guild_id && x.name == e.name) = true) :
    entryKey x = entryKey e := by
  rw [Bool.and_eq_true, beq_iff_eq, beq_iff_eq] at h
  simp [entryKey, h.1, h.2]

lemma map_key_upsert (es : List ShortcutEntry) (e : ShortcutEntry) :
    (upsert es e).map entryKey =
      if es.any (fun x => x.guild_id == e.guild_id && x.name == e.name) then
        es.map entryKey
      else es.map entryKey ++ [entryKey e] := by
  unfold upsert
  by_cases h : es.any (fun x => x.guild_id == e.guild_id && x.name == e.name) = true
  · rw [if_pos h, if_pos h, List.map_map]
    refine List.map_congr_left (fun x _ => ?_)
    show entryKey (if (x.guild_id == e.guild_id && x.name == e.name) = true then e else x)
      = entryKey x
    by_cases hm : (x.guild_id == e.guild_id && x.name == e.name) = true
    · rw [if_pos hm]; exact (entryKey_eq_of_match hm).symm
    · rw [if_neg hm]
  · rw [if_neg h, if_neg h, List.map_append]
    rfl

lemma nodupKeys_upsert {es : List ShortcutEntry} (e : ShortcutEntry)
    (h : NodupKeys es) : NodupKeys (upsert es e) := by
  unfold NodupKeys
  rw [map_key_upsert]
  by_cases hm : es.any (fun x => x.guild_id == e.guild_id && x.name == e.name) = true
  · rw [if_pos hm]; exact h
  · rw [if_neg hm]
    rw [List.nodup_append]
    refine ⟨h, List.nodup_singleton _, ?_⟩
    intro k hk
    simp only [List.mem_singleton]
    intro hke
    rw [List.mem_map] at hk
    obtain ⟨x, hx, hkx⟩ := hk
    rw [List.any_eq_true] at hm
    apply hm
    refine ⟨x, hx, ?_⟩
    have : entryKey x = entryKey e := by rw [hkx, hke]
    unfold entryKey at this
    rw [Prod.mk.injEq] at this
    simp [this.1, this.2]

lemma nodupKeys_applyUpsert {es : List ShortcutEntry} (g : Nat) (n v c : Str)
    (h : NodupKeys es) : NodupKeys (applyUpsert es g n v c) := by
  unfold applyUpsert
  cases query_one es g n with
  | none => exact nodupKeys_upsert _ h
  | some ent => exact nodupKeys_upsert _ h

/-- Claim C1 counterexample: from an empty table, `set(guild, "Hi", ...)`
followed by `set(guild, "hi", ...)` yields two entries whose lowercased
name is "hi" — the second call appends instead of overwriting, so the
entry set does not contain exactly one such entry. -/
theorem set_case_insensitive_overwrite_fails :
    lowerCount
      (entriesOrElse []
        (set (some ⟨1, ("!".data), 10⟩)
          (entriesOrElse []
            (set (some ⟨1, ("!".data), 10⟩) [] 1 ("Hi".data) ("a".data) ("General".data)))
          1 ("hi".data) ("b".data) ("General".data)))
      1 ("hi".data) = 2 ∧
    ¬ (lowerCount
      (entriesOrElse []
        (set (some ⟨1, ("!".data), 10⟩)
          (entriesOrElse []
            (set (some ⟨1, ("!".data), 10⟩) [] 1 ("Hi".data) ("a".data) ("General".data)))
          1 ("hi".data) ("b".data) ("General".data)))
      1 ("hi".data) = 1) := by
  constructor
  · decide
  · decide

/-- Claim C1 (amended): shortcut names are case-sensitively (exactly)
unique within a guild — `set` preserves the invariant that no two entries
share the exact `(guild_id, name)` key, but `set(guild,"Hi",...)` followed
by `set(guild,"hi",...)` produces two entries whose lowercased name is
"hi": names differing only in case do not overwrite each other. -/
theorem set_exact_uniqueness :
    (∀ (st : ShortcutSetting) (es es' : List ShortcutEntry) (g : Nat)
        (n v c : Str),
      NodupKeys es → set (some st) es g n v c = .ok es' → NodupKeys es') ∧
    lowerCount
      (entriesOrElse []
        (set (some ⟨1, ("!".data), 10⟩)
          (entriesOrElse []
            (set (some ⟨1, ("!".data), 10⟩) [] 1 ("Hi".data) ("a".data) ("General".data)))
          1 ("hi".data) ("b".data) ("General".data)))
      1 ("hi".data) = 2 := by
  constructor
  · intro st es es' g n v c hnd hok
    unfold set at hok
    split at hok
    · exact absurd hok (by simp)
    · split at hok
      · exact absurd hok (by simp)
      · split at hok
        · exact absurd hok (by simp)
        · split at hok
          · exact absurd hok (by simp)
          · split at hok
            · exact absurd hok (by simp)
            · rw [Except.ok.injEq] at hok
              rw [← hok]
              exact nodupKeys_applyUpsert g n v c hnd
  · decide

/-- Witness for C1: the invariant-preservation part applied at a concrete
input — inserting "Hi" into an empty table keeps exact keys unique. -/
theorem set_exact_uniqueness_witness :
    NodupKeys [⟨1, ("Hi".data), ("a".data), ("General".data)⟩] :=
  set_exact_uniqueness.1 ⟨1, ("!".data), 10⟩ []
    [⟨1, ("Hi".data), ("a".data), ("General".data)⟩] 1
    ("Hi".data) ("a".data) ("General".data) (by unfold NodupKeys; simp) rfl

/-- Claim C8: for every guild with no settings row (no prefix configured),
`set` fails with the prefix `BadArgument` before any name/value/category
validation, for every argument triple, and no entry is created or
modified. -/
theorem set_requires_settings :
    ∀ (es : List ShortcutEntry) (g : Nat) (cmd_name cmd_msg category : Str),
      set none es g cmd_name cmd_msg category =
        .error (.badArgument ("Set a prefix first!".data)) ∧
      entriesOrElse es (set none es g cmd_name cmd_msg category) = es := by
  intro es g cmd_name cmd_msg category
  exact ⟨rfl, rfl⟩

/-- Claim C10: `deletecategory` with any category name that lowercases to
"general" is rejected with the guard error for every entry list and
confirmation token — the branch does not depend on the entries, so no
entry is read or modified. -/
theorem deletecategory_general_guard :
    ∀ (es : List ShortcutEntry) (g : Nat) (nm : Str) (confirm : Option Str),
      lowerStr nm = ("general".data) →
      deletecategory es g nm confirm =
        .error (.badArgument ("Cannot delete the General category.".data)) ∧
      entriesOrElse es (deletecategory es g nm confirm) = es := by
  intro es g nm confirm h
  have hd : deletecategory es g nm confirm =
      .error (.badArgument ("Cannot delete the General category.".data)) := by
    unfold deletecategory
    rw [if_pos h]
  exact ⟨hd, by rw [hd]; rfl⟩

/-- Witness for C10: the guard fires on the mixed-case name "GeNeRaL" with
the CONFIRM token supplied and a matching entry present. -/
theorem deletecategory_general_guard_witness :
    deletecategory [⟨1, ("hi".data), ("v".data), ("GeNeRaL".data)⟩] 1
        ("GeNeRaL".data) (some ("CONFIRM".data)) =
      .error (.badArgument ("Cannot delete the General category.".data)) :=
  (deletecategory_general_guard [⟨1, ("hi".data), ("v".data), ("GeNeRaL".data)⟩]
    1 ("GeNeRaL".data) (some ("CONFIRM".data)) (by decide)).1

/-- The matching loop of `Shortcuts.on_message`: walk the stored entries
in order, replying with the first whose lowercased name equals the
already-lowercased command name. -/
def scanShortcuts (cmdName : Str) : List ShortcutEntry → Option Str
  | [] => none
  | e :: rest =>
    if cmdName == lowerStr e.name then some e.value else scanShortcuts cmdName rest

/-- `Shortcuts.on_message` (shortcuts.py lines 772-797): the prefix
scanner. Ignores non-guild and bot messages and unconfigured guilds;
requires the message to be at least as long as the prefix and to start
with it case-sensitively; then matches `msg.content.lower()` with the
prefix length stripped against each entry. `none` is no reply. -/
def on_message (hasGuild authorBot : Bool) (settings : Option ShortcutSetting)
    (content : Str) (entries : List ShortcutEntry) : Option Str :=
  if !hasGuild || authorBot then none
  else
    match settings with
    | none => none
    | some st =>
      if content.length < st.pfx.length then none
      else if !(startsWithStr st.pfx content) then none
      else if entries = [] then none
      else scanShortcuts ((lowerStr content).drop st.pfx.length) entries

lemma scanShortcuts_eq_find? (cmd : Str) (es : List ShortcutEntry) :
    scanShortcuts cmd es =
      (es.find? (fun e => cmd == lowerStr e.name)).map ShortcutEntry.value := by
  induction es with
  | nil => rfl
  | cons e rest ih =>
    by_cases h : (cmd == lowerStr e.name) = true
    · simp [scanShortcuts, List.find?_cons, h]
    · simp only [Bool.not_eq_true] at h
      simp [scanShortcuts, List.find?_cons, h, ih]

lemma startsWithStr_length {p c : Str} (h : startsWithStr p c = true) :
    p.length ≤ c.length := by
  induction p generalizing c with
  | nil => exact Nat.zero_le _
  | cons a as ih =>
    cases c with
    | nil => exact absurd h (by simp [startsWithStr])
    | cons b bs =>
      rw [startsWithStr, Bool.and_eq_true] at h
      simp only [List.length_cons]
      exact Nat.succ_le_succ (ih h.2)

lemma lowerStr_drop (l : Str) (n : Nat) :
    (lowerStr l).drop n = lowerStr (l.drop n) := by
  unfold lowerStr
  rw [List.map_drop]

/-- Claim C3: for a guild message from a non-bot sender with a configured
prefix, the dispatcher is a no-op when the message is shorter than the
prefix or does not start with it case-sensitively; otherwise the reply is
the stored value of the first entry (in stored order) whose name matches
the prefix-stripped remainder case-insensitively, and no entry matching
(`find?` returning `none`) means no reply and no error. -/
theorem on_message_dispatch :
    ∀ (st : ShortcutSetting) (content : Str) (entries : List ShortcutEntry),
      (content.length < st.pfx.length →
        on_message true false (some st) content entries = none) ∧
      (startsWithStr st.pfx content = false →
        on_message true false (some st) content entries = none) ∧
      (startsWithStr st.pfx content = true →
        on_message true false (some st) content entries =
          (entries.find? (fun e =>
            lowerStr (content.drop st.pfx.length) == lowerStr e.name)).map
            ShortcutEntry.value) := by
  intro st content entries
  refine ⟨?_, ?_, ?_⟩
  · intro h
    show (if content.length < st.pfx.length then none
      else if !(startsWithStr st.pfx content) then none
      else if entries = [] then none
      else scanShortcuts ((lowerStr content).drop st.pfx.length) entries) = none
    rw [if_pos h]
  · intro h
    show (if content.length < st.pfx.length then none
      else if !(startsWithStr st.pfx content) then none
      else if entries = [] then none
      else scanShortcuts ((lowerStr content).drop st.pfx.length) entries) = none
    by_cases hl : content.length < st.pfx.length
    · rw [if_pos hl]
    · rw [if_neg hl, if_pos (by rw [h]; rfl)]
  · intro h
    have hl : ¬ content.length < st.pfx.length :=
      Nat.not_lt.mpr (startsWithStr_length h)
    show (if content.length < st.pfx.length then none
      else if !(startsWithStr st.pfx content) then none
      else if entries = [] then none
      else scanShortcuts ((lowerStr content).drop st.pfx.length) entries) =
        (entries.find? (fun e =>
          lowerStr (content.drop st.pfx.length) == lowerStr e.name)).map
          ShortcutEntry.value
    rw [if_neg hl, if_neg (by rw [h]; simp)]
    by_cases he : entries = []
    · rw [if_pos he, he]
      rfl
    · rw [if_neg he, scanShortcuts_eq_find?]
      simp only [lowerStr_drop]

/-- Witness for C3: with prefix "!", stored entry "hello", and message
"!HeLLo", the dispatcher replies with the stored value verbatim. -/
theorem on_message_dispatch_witness :
    on_message true false (some ⟨1, ("!".data), 10⟩) ("!HeLLo".data)
        [⟨1, ("hello".data), ("Hi there!".data), ("General".data)⟩] =
      (([⟨1, ("hello".data), ("Hi there!".data), ("General".data)⟩] :
          List ShortcutEntry).find? (fun e =>
        lowerStr (("!HeLLo".data).drop (("!".data) : Str).length) == lowerStr e.name)).map
        ShortcutEntry.value :=
  (on_message_dispatch ⟨1, ("!".data), 10⟩ ("!HeLLo".data)
    [⟨1, ("hello".data), ("Hi there!".data), ("General".data)⟩]).2.2 (by decide)

/-- State of `ShortcutPaginator` (shortcuts.py lines 67-116): entry list of
the selected category, guild prefix, page size, and current page. -/
structure ShortcutPaginator where
  shortcuts : List ShortcutEntry
  pfx : Str
  per_page : Nat
  current_page : Nat
deriving Repr, DecidableEq

/-- `math.ceil(len(shortcuts) / per_page)`, computed in the constructor. -/
def ShortcutPaginator.max_pages (v : ShortcutPaginator) : Nat :=
  (v.shortcuts.length + v.per_page - 1) / v.per_page

/-- `ShortcutNextButton.callback` (shortcuts.py lines 189-196): advance one
page if below the last page, otherwise acknowledge without changing
anything (`interaction.response.defer()`). -/
def nextButtonCallback (v : ShortcutPaginator) : ShortcutPaginator :=
  if v.current_page < v.max_pages - 1 then
    { v with current_page := v.current_page + 1 }
  else v

/-- `ShortcutPreviousButton.callback` (shortcuts.py lines 169-176). -/
def prevButtonCallback (v : ShortcutPaginator) : ShortcutPaginator :=
  if 0 < v.current_page then
    { v with current_page := v.current_page - 1 }
  else v

/-- Display truncation of `ShortcutPaginator.create_embed`: values longer
than 1024 are cut to 1021 characters plus an ellipsis marker. -/
def renderValue (value : Str) : Str :=
  if value.length > 1024 then value.take 1021 ++ ("...".data) else value

/-- `ShortcutPaginator.create_embed` (shortcuts.py lines 88-111): renders
the page slice `shortcuts[start_idx:end_idx]` as embed fields
(prefixed name, possibly truncated value). The paginator state is returned
alongside to make explicit that rendering never mutates it. -/
def ShortcutPaginator.create_embed (v : ShortcutPaginator) (page : Nat) :
    List (Str × Str) × ShortcutPaginator :=
  let start_idx := page * v.per_page
  let end_idx := min (start_idx + v.per_page) v.shortcuts.length
  let page_shortcuts := (v.shortcuts.take end_idx).drop start_idx
  (page_shortcuts.map (fun sc => (v.pfx ++ sc.name, renderValue sc.value)), v)

/-- Claim C6: for a category with at least one entry and a positive page
size, `max_pages` is the ceiling of N / P (characterized by
`(maxPages - 1) * P < N ≤ maxPages * P`), and Next on the last page as
well as Previous on page 0 leave the whole paginator state unchanged. -/
theorem paginator_clamp :
    ∀ (v : ShortcutPaginator), 0 < v.per_page → 0 < v.shortcuts.length →
      (v.shortcuts.length ≤ v.max_pages * v.per_page ∧
        (v.max_pages - 1) * v.per_page < v.shortcuts.length) ∧
      (v.current_page = v.max_pages - 1 → nextButtonCallback v = v) ∧
      (v.current_page = 0 → prevButtonCallback v = v) := by
  intro v hp hn
  have hq : v.max_pages = (v.shortcuts.length - 1) / v.per_page + 1 := by
    unfold ShortcutPaginator.max_pages
    have h1 : v.shortcuts.length + v.per_page - 1 =
        (v.shortcuts.length - 1) + v.per_page := by omega
    rw [h1, Nat.add_div_right _ hp]
  refine ⟨⟨?_, ?_⟩, ?_, ?_⟩
  · rw [hq]
    have h2 : (v.shortcuts.length - 1) / v.per_page <
        (v.shortcuts.length - 1) / v.per_page + 1 := Nat.lt_succ_self _
    have h3 := (Nat.div_lt_iff_lt_mul hp).mp h2
    omega
  · rw [hq]
    simp only [Nat.add_sub_cancel]
    have h4 := Nat.div_mul_le_self (v.shortcuts.length - 1) v.per_page
    omega
  · intro h
    unfold nextButtonCallback
    rw [if_neg (by rw [h]; exact Nat.lt_irrefl _)]
  · intro h
    unfold prevButtonCallback
    rw [if_neg (by rw [h]; exact Nat.lt_irrefl _)]

/-- Witness for C6: eleven entries at page size ten give two pages, and
both out-of-bound presses leave the state unchanged. -/
theorem paginator_clamp_witness :
    nextButtonCallback ⟨List.replicate 11 ⟨1, ("a".data), ("b".data), ("General".data)⟩,
        ("!".data), 10, 1⟩ =
      ⟨List.replicate 11 ⟨1, ("a".data), ("b".data), ("General".data)⟩,
        ("!".data), 10, 1⟩ ∧
    prevButtonCallback ⟨List.replicate 11 ⟨1, ("a".data), ("b".data), ("General".data)⟩,
        ("!".data), 10, 0⟩ =
      ⟨List.replicate 11 ⟨1, ("a".data), ("b".data), ("General".data)⟩,
        ("!".data), 10, 0⟩ :=
  ⟨(paginator_clamp ⟨List.replicate 11 ⟨1, ("a".data), ("b".data), ("General".data)⟩,
      ("!".data), 10, 1⟩ (by decide) (by decide)).2.1 (by decide),
   (paginator_clamp ⟨List.replicate 11 ⟨1, ("a".data), ("b".data), ("General".data)⟩,
      ("!".data), 10, 0⟩ (by decide) (by decide)).2.2 rfl⟩

/-- Claim C7: rendering a browser page never mutates the paginator state
(the returned state is the input state, every stored value included), and
every rendered field comes from a stored entry with the value put through
`renderValue`; a stored value longer than 1024 renders at exactly the
1024 cap and ends in the "..." ellipsis marker. -/
theorem create_embed_truncation :
    ∀ (v : ShortcutPaginator) (page : Nat),
      (v.create_embed page).2 = v ∧
      (∀ nm val, (nm, val) ∈ (v.create_embed page).1 →
        ∃ sc, sc ∈ v.shortcuts ∧ nm = v.pfx ++ sc.name ∧
          val = renderValue sc.value ∧
          (1024 < sc.value.length →
            val.length = 1024 ∧ List.IsSuffix ("...".data) val)) := by
  intro v page
  refine ⟨rfl, ?_⟩
  intro nm val hmem
  unfold ShortcutPaginator.create_embed at hmem
  simp only [List.mem_map] at hmem
  obtain ⟨sc, hsc, heq⟩ := hmem
  have hsc' : sc ∈ v.shortcuts :=
    List.take_subset _ _ (List.drop_subset _ _ hsc)
  rw [Prod.mk.injEq] at heq
  refine ⟨sc, hsc', heq.1.symm, heq.2.symm, ?_⟩
  intro hlong
  have hval : val = sc.value.take 1021 ++ ("...".data) := by
    rw [← heq.2]
    unfold renderValue
    rw [if_pos hlong]
  constructor
  · rw [hval, List.length_append, List.length_take]
    have h3 : (("...".data) : Str).length = 3 := rfl
    rw [h3]
    have hmin : 1021 ⊓ sc.value.length = 1021 := min_eq_left (by omega)
    omega
  · rw [hval]
    exact ⟨sc.value.take 1021, rfl⟩

/-- Witness for C7: a single short entry renders as itself, with the state
returned unchanged. -/
theorem create_embed_truncation_witness :
    ∃ sc, sc ∈ (⟨[⟨1, ("a".data), ("b".data), ("General".data)⟩], ("!".data), 10, 0⟩ :
        ShortcutPaginator).shortcuts ∧
      (("!".data) ++ ("a".data) : Str) =
        (⟨[⟨1, ("a".data), ("b".data), ("General".data)⟩], ("!".data), 10, 0⟩ :
          ShortcutPaginator).pfx ++ sc.name ∧
      ("b".data : Str) = renderValue sc.value ∧
      (1024 < sc.value.length →
        (("b".data : Str)).length = 1024 ∧ List.IsSuffix ("...".data) ("b".data)) :=
  (create_embed_truncation
    ⟨[⟨1, ("a".data), ("b".data), ("General".data)⟩], ("!".data), 10, 0⟩ 0).2
    (("!".data) ++ ("a".data)) ("b".data) (by decide)

/-- Modelled from the spec: `ShortcutEntry.delete_all(guild_id)` of the db
layer (not under src/) — spec section 4.3 `deleteAll(guild)` deletes every
entry of the guild and returns the count deleted. -/
def delete_all (es : List ShortcutEntry) (g : Nat) : List ShortcutEntry × Nat :=
  (es.filter (fun e => !(e.guild_id == g)),
   (es.filter (fun e => e.guild_id == g)).length)

/-- `Shortcuts.bulk_delete` (shortcuts.py lines 642-717): with no category
or without the literal CONFIRM token it only prompts (no change); with
category "all" (case-insensitive) and CONFIRM it deletes all of the
guild's entries; with another category and CONFIRM it deletes that
category's entries by name. Returns the surviving table and the deleted
count. -/
def bulk_delete (es : List ShortcutEntry) (g : Nat) :
    Option Str → Option Str → List ShortcutEntry × Nat
  | none, _ => (es, 0)
  | some cat, confirm =>
    if lowerStr cat = ("all".data) ∧ confirm ≠ some ("CONFIRM".data) then (es, 0)
    else if ¬ lowerStr cat = ("all".data) ∧ confirm ≠ some ("CONFIRM".data) then (es, 0)
    else if lowerStr cat = ("all".data) ∧ confirm = some ("CONFIRM".data) then
      delete_all es g
    else
      let ents := es.filter (fun e => e.guild_id == g && e.category == cat)
      if ents = [] then (es, 0)
      else (es.filter (fun e => !(e.guild_id == g && e.category == cat)), ents.length)

/-- Per-category tallies of `Shortcuts.categories` (shortcuts.py lines
453-481): fold the guild's entries into (category, count) pairs in first
appearance order. -/
def categoryCounts (ents : List ShortcutEntry) : List (Str × Nat) :=
  ents.foldl (fun acc e =>
    match acc.find? (fun p => p.1 == e.category) with
    | some _ => acc.map (fun p => if p.1 == e.category then (p.1, p.2 + 1) else p)
    | none => acc ++ [(e.category, 1)]) []

/-- Claim C5: `bulk_delete all` without the literal CONFIRM token leaves
the table unchanged and deletes nothing; with the token it reports exactly
the number of entries the guild had, no entry of the guild survives,
every other guild's entry survives, and the guild's category listing is
then empty. -/
theorem bulk_delete_all_guard :
    ∀ (es : List ShortcutEntry) (g : Nat) (confirm : Option Str),
      (confirm ≠ some ("CONFIRM".data) →
        bulk_delete es g (some ("all".data)) confirm = (es, 0)) ∧
      (bulk_delete es g (some ("all".data)) (some ("CONFIRM".data))).2 =
        (es.filter (fun e => e.guild_id == g)).length ∧
      (bulk_delete es g (some ("all".data)) (some ("CONFIRM".data))).1.filter
        (fun e => e.guild_id == g) = [] ∧
      (∀ e ∈ es, ¬ e.guild_id = g →
        e ∈ (bulk_delete es g (some ("all".data)) (some ("CONFIRM".data))).1) ∧
      categoryCounts
        ((bulk_delete es g (some ("all".data)) (some ("CONFIRM".data))).1.filter
          (fun e => e.guild_id == g)) = [] := by
  intro es g confirm
  have hbr : bulk_delete es g (some ("all".data)) (some ("CONFIRM".data)) =
      delete_all es g := by
    simp only [bulk_delete]
    rw [if_neg (fun hc => hc.2 rfl), if_neg (fun hc => hc.1 (by decide)),
       if_pos ⟨by decide, by trivial⟩]
  have hfe : (bulk_delete es g (some ("all".data)) (some ("CONFIRM".data))).1.filter
      (fun e => e.guild_id == g) = [] := by
    rw [hbr]
    show (es.filter (fun e => !(e.guild_id == g))).filter (fun e => e.guild_id == g) = []
    rw [List.filter_filter]
    simp
  refine ⟨?_, ?_, hfe, ?_, ?_⟩
  · intro h
    simp only [bulk_delete]
    rw [if_pos ⟨by decide, h⟩]
  · rw [hbr]
    rfl
  · intro e he hne
    rw [hbr]
    exact List.mem_filter.mpr ⟨he, by simp [hne]⟩
  · rw [hfe]
    rfl

/-- Witness for C5: one stored entry, `bulk_delete all` with a lowercase
"confirm" token deletes nothing. -/
theorem bulk_delete_all_guard_witness :
    bulk_delete [⟨1, ("hi".data), ("v".data), ("General".data)⟩] 1
        (some ("all".data)) (some ("confirm".data)) =
      ([⟨1, ("hi".data), ("v".data), ("General".data)⟩], 0) :=
  (bulk_delete_all_guard [⟨1, ("hi".data), ("v".data), ("General".data)⟩] 1
    (some ("confirm".data))).1 (by decide)

/-- Column layout detected by `Shortcuts._get_csv_column_info`. -/
structure ColumnInfo where
  has_headers : Bool
  shortcut_col : Nat
  value_col : Nat
  category_col : Option Nat
deriving Repr, DecidableEq

/-- Python `row[i]` with the bounds handled by the callers' guards
(out-of-range access is never reached where this is used). -/
def cellD (row : List Str) (i : Nat) : Str := row.getD i []

/-- The header scan loop of `_get_csv_column_info`: `for i, header in
enumerate(first_row)` with the shortcut/value/category elif chain; a later
matching header overwrites an earlier index. -/
def scanHeaders : Nat → List Str → Nat → Nat → Option Nat → Nat × Nat × Option Nat
  | _, [], s, v, c => (s, v, c)
  | i, h :: rest, s, v, c =>
    if lowerStr h = ("shortcut".data) then scanHeaders (i + 1) rest i v c
    else if lowerStr h = ("value".data) then scanHeaders (i + 1) rest s i c
    else if lowerStr h = ("category".data) then scanHeaders (i + 1) rest s v (some i)
    else scanHeaders (i + 1) rest s v c

/-- `Shortcuts._get_csv_column_info` (shortcuts.py lines 885-917):
`category_col` starts at 2 when the first row has more than two cells
(else absent); the file is header-bearing iff the first two cells
lowercase to "shortcut" and "value", in which case the header scan may
move the three indices. -/
def get_csv_column_info (first_row : List Str) : ColumnInfo :=
  let category_col : Option Nat := if first_row.length > 2 then some 2 else none
  if lowerStr (cellD first_row 0) = ("shortcut".data) ∧
      lowerStr (cellD first_row 1) = ("value".data) then
    let r := scanHeaders 0 first_row 0 1 category_col
    ⟨true, r.1, r.2.1, r.2.2⟩
  else ⟨false, 0, 1, category_col⟩

/-- Aggregate report of the CSV import: `{"imported": 0, "skipped": 0,
"errors": []}`. -/
structure ImportResults where
  imported : Nat
  skipped : Nat
  errors : List Str
deriving Repr, DecidableEq

/-- `results["errors"].append(msg)`. -/
def addError (res : ImportResults) (m : Str) : ImportResults :=
  { res with errors := res.errors ++ [m] }

/-- `results["skipped"] += 1`. -/
def addSkip (res : ImportResults) : ImportResults :=
  { res with skipped := res.skipped + 1 }

/-- The `f"Row {row_num + 1}: "` message head. -/
def rowTag (row_num : Nat) : Str :=
  ("Row ".data) ++ (Nat.repr (row_num + 1)).data ++ (": ".data)

/-- The category cell read of `_process_csv_row`:
`row[category_col] if category_col is not None and len(row) > category_col
else "General"`. -/
def categoryCell (row : List Str) (ci : ColumnInfo) : Str :=
  match ci.category_col with
  | some cc => if cc < row.length then cellD row cc else ("General".data)
  | none => ("General".data)

/-- The leading-prefix strip of `_process_csv_row`. -/
def stripPfx (st : ShortcutSetting) (n : Str) : Str :=
  if startsWithStr st.pfx n then n.drop st.pfx.length else n

/-- First category reassignment of `_process_csv_row`: a category longer
than 50 records an error and is replaced by "General". -/
def validateCategoryLength (row_num : Nat) (p : Str × ImportResults) :
    Str × ImportResults :=
  if p.1.length > 50 then
    (("General".data),
      addError p.2 (rowTag row_num ++ ("Category name too long (max 50 chars)".data)))
  else p

/-- Second category reassignment of `_process_csv_row`: a category failing
the charset check records an error and is replaced by "General"; it runs
on the value left by the length check. -/
def validateCategoryCharset (row_num : Nat) (p : Str × ImportResults) :
    Str × ImportResults :=
  if !(validCategoryChars p.1) then
    (("General".data),
      addError p.2 (rowTag row_num ++
        ("Invalid category name (only letters, numbers, spaces, hyphens, underscores)".data)))
  else p

/-- The two sequential category reassignments of `_process_csv_row`. -/
def validateCategory (row_num : Nat) (category : Str) (res : ImportResults) :
    Str × ImportResults :=
  validateCategoryCharset row_num (validateCategoryLength row_num (category, res))

/-- `Shortcuts._process_csv_row` (shortcuts.py lines 919-980): a row with
too few cells records an error and returns with no counter change; a
too-long or empty name (after prefix strip) or empty value records an
error and increments skipped; otherwise the category is validated with
defaulting and the row is upserted and counted imported. -/
def process_csv_row (row : List Str) (row_num : Nat) (ci : ColumnInfo)
    (st : ShortcutSetting) (es : List ShortcutEntry) (res : ImportResults)
    (g : Nat) : List ShortcutEntry × ImportResults :=
  if row.length ≤ max ci.shortcut_col ci.value_col then
    (es, addError res (rowTag row_num ++ ("Not enough columns".data)))
  else
    let shortcut_name := stripPfx st (cellD row ci.shortcut_col)
    let value := cellD row ci.value_col
    let category := categoryCell row ci
    if shortcut_name.length > MAX_LEN then
      (es, addSkip (addError res
        (rowTag row_num ++ ("Shortcut name too long (max 20 chars)".data))))
    else if shortcut_name = [] ∨ value = [] then
      (es, addSkip (addError res
        (rowTag row_num ++ ("Shortcut name or value is empty".data))))
    else
      let p := validateCategory row_num category res
      (applyUpsert es g shortcut_name value p.1,
        { p.2 with imported := p.2.imported + 1 })

/-- The row loop of `_process_csv_import`: `enumerate(reader, start)` with
the per-row processor threading entries and results. -/
def processRows (ci : ColumnInfo) (st : ShortcutSetting) (g : Nat) :
    List (List Str) → Nat → List ShortcutEntry → ImportResults →
    List ShortcutEntry × ImportResults
  | [], _, es, res => (es, res)
  | row :: rest, n, es, res =>
    let p := process_csv_row row n ci st es res g
    processRows ci st g rest (n + 1) p.1 p.2

/-- `Shortcuts._process_csv_import` (shortcuts.py lines 843-883) over the
already-parsed CSV rows: aborts whole on a first row with fewer than two
cells or on a missing settings row; with headers it processes the
remaining rows numbered from 1, otherwise it reprocesses the whole file
including the first row, numbered from 0. -/
def process_csv_import (settings : Option ShortcutSetting)
    (rows : List (List Str)) (es : List ShortcutEntry) (g : Nat) :
    Except Str (List ShortcutEntry × ImportResults) :=
  match rows with
  | [] => .error ("Invalid CSV format".data)
  | first_row :: rest =>
    if first_row.length < 2 then .error ("Invalid CSV format".data)
    else
      let ci := get_csv_column_info first_row
      match settings with
      | none => .error ("Set a prefix first".data)
      | some st =>
        if ci.has_headers then .ok (processRows ci st g rest 1 es ⟨0, 0, []⟩)
        else .ok (processRows ci st g (first_row :: rest) 0 es ⟨0, 0, []⟩)

/-- Unwraps an import result; whole-file errors happen before any row is
processed, so they carry the untouched initial state. -/
def importOut (x : Except Str (List ShortcutEntry × ImportResults)) :
    List ShortcutEntry × ImportResults :=
  match x with
  | .ok p => p
  | .error _ => ([], ⟨0, 0, []⟩)

lemma validateCategory_valid {category : Str} (row_num : Nat) (res : ImportResults)
    (h1 : ¬ category.length > 50) (h2 : validCategoryChars category = true) :
    validateCategory row_num category res = (category, res) := by
  have hl : validateCategoryLength row_num (category, res) = (category, res) := by
    unfold validateCategoryLength
    rw [if_neg h1]
  unfold validateCategory
  rw [hl]
  unfold validateCategoryCharset
  rw [if_neg (by simp [h2])]

lemma validateCategory_invalid {category : Str} (row_num : Nat) (res : ImportResults)
    (h : 50 < category.length ∨ validCategoryChars category = false) :
    (validateCategory row_num category res).1 = ("General".data) ∧
    (validateCategory row_num category res).2.imported = res.imported ∧
    (validateCategory row_num category res).2.skipped = res.skipped ∧
    (validateCategory row_num category res).2.errors.length = res.errors.length + 1 := by
  by_cases h50 : category.length > 50
  · have hl : validateCategoryLength row_num (category, res) =
        (("General".data),
          addError res (rowTag row_num ++ ("Category name too long (max 50 chars)".data))) := by
      unfold validateCategoryLength
      rw [if_pos h50]
    have hc : validateCategory row_num category res =
        (("General".data),
          addError res (rowTag row_num ++ ("Category name too long (max 50 chars)".data))) := by
      unfold validateCategory
      rw [hl]
      unfold validateCategoryCharset
      have hgen : validCategoryChars (("General".data)) = true := by decide
      rw [if_neg (by simp [hgen])]
    rw [hc]
    refine ⟨rfl, rfl, rfl, ?_⟩
    simp [addError]
  · have hcc : validCategoryChars category = false := by
      rcases h with h1 | h2
      · exact absurd h1 h50
      · exact h2
    have hl : validateCategoryLength row_num (category, res) = (category, res) := by
      unfold validateCategoryLength
      rw [if_neg h50]
    have hc : validateCategory row_num category res =
        (("General".data),
          addError res (rowTag row_num ++
            ("Invalid category name (only letters, numbers, spaces, hyphens, underscores)".data))) := by
      unfold validateCategory
      rw [hl]
      unfold validateCategoryCharset
      rw [if_pos (by simp [hcc])]
    rw [hc]
    refine ⟨rfl, rfl, rfl, ?_⟩
    simp [addError]

/-- Claim C2 counterexample: importing the single headerless data row
`hi,msg,bad!cat` records one per-row validation error (invalid category
charset), yet the row IS upserted — with category coerced to "General" —
and counted as imported, contradicting "the row is not upserted" and
"only rows passing all validations are upserted and counted as
imported". -/
theorem csv_row_category_error_still_imports :
    (importOut (process_csv_import (some ⟨1, ("!".data), 10⟩)
      [[("hi".data), ("msg".data), ("bad!cat".data)]] [] 1)).2.errors.length = 1 ∧
    (importOut (process_csv_import (some ⟨1, ("!".data), 10⟩)
      [[("hi".data), ("msg".data), ("bad!cat".data)]] [] 1)).1 =
      [⟨1, ("hi".data), ("msg".data), ("General".data)⟩] ∧
    (importOut (process_csv_import (some ⟨1, ("!".data), 10⟩)
      [[("hi".data), ("msg".data), ("bad!cat".data)]] [] 1)).2.imported = 1 ∧
    ¬ ((importOut (process_csv_import (some ⟨1, ("!".data), 10⟩)
        [[("hi".data), ("msg".data), ("bad!cat".data)]] [] 1)).2.imported = 0 ∧
      (importOut (process_csv_import (some ⟨1, ("!".data), 10⟩)
        [[("hi".data), ("msg".data), ("bad!cat".data)]] [] 1)).1 = []) := by
  refine ⟨by decide, by decide, by decide, by decide⟩

/-- Claim C2 (amended): for a data row with enough cells, a too-long or
empty shortcut name (after prefix strip) or empty value records a row
error, increments only the skipped counter and leaves the table untouched;
but a category validation failure (length over 50 or charset) records a
row error and still upserts the row with category coerced to "General",
counting it imported; rows passing all validations upsert with their own
category and no error. The batch itself is never aborted. -/
theorem process_csv_row_validation_policy :
    ∀ (row : List Str) (row_num : Nat) (ci : ColumnInfo) (st : ShortcutSetting)
      (es : List ShortcutEntry) (res : ImportResults) (g : Nat) (n v c : Str),
      n = stripPfx st (cellD row ci.shortcut_col) →
      v = cellD row ci.value_col →
      c = categoryCell row ci →
      max ci.shortcut_col ci.value_col < row.length →
      ((MAX_LEN < n.length →
          process_csv_row row row_num ci st es res g =
            (es, addSkip (addError res
              (rowTag row_num ++ ("Shortcut name too long (max 20 chars)".data))))) ∧
        (n.length ≤ MAX_LEN → (n = [] ∨ v = []) →
          process_csv_row row row_num ci st es res g =
            (es, addSkip (addError res
              (rowTag row_num ++ ("Shortcut name or value is empty".data))))) ∧
        (n.length ≤ MAX_LEN → ¬ (n = [] ∨ v = []) →
          (50 < c.length ∨ validCategoryChars c = false) →
          (process_csv_row row row_num ci st es res g).1 =
            applyUpsert es g n v ("General".data) ∧
          (process_csv_row row row_num ci st es res g).2.imported = res.imported + 1 ∧
          (process_csv_row row row_num ci st es res g).2.skipped = res.skipped ∧
          (process_csv_row row row_num ci st es res g).2.errors.length =
            res.errors.length + 1) ∧
        (n.length ≤ MAX_LEN → ¬ (n = [] ∨ v = []) → c.length ≤ 50 →
          validCategoryChars c = true →
          process_csv_row row row_num ci st es res g =
            (applyUpsert es g n v c, { res with imported := res.imported + 1 }))) := by
  intro row row_num ci st es res g n v c hn hv hc hlen
  subst hn
  subst hv
  subst hc
  refine ⟨?_, ?_, ?_, ?_⟩
  · intro hbig
    simp only [process_csv_row]
    rw [if_neg (by omega), if_pos hbig]
  · intro hsmall hempty
    simp only [process_csv_row]
    rw [if_neg (by omega), if_neg (by omega), if_pos hempty]
  · intro hsmall hempty hbad
    have heq : process_csv_row row row_num ci st es res g =
        (applyUpsert es g (stripPfx st (cellD row ci.shortcut_col))
            (cellD row ci.value_col)
            (validateCategory row_num (categoryCell row ci) res).1,
          { (validateCategory row_num (categoryCell row ci) res).2 with
            imported :=
              (validateCategory row_num (categoryCell row ci) res).2.imported + 1 }) := by
      simp only [process_csv_row]
      rw [if_neg (by omega), if_neg (by omega), if_neg hempty]
    obtain ⟨hv1, hv2, hv3, hv4⟩ := validateCategory_invalid row_num res hbad
    refine ⟨?_, ?_, ?_, ?_⟩
    · rw [heq, hv1]
    · rw [heq]
      simp [hv2]
    · rw [heq]
      simp [hv3]
    · rw [heq]
      simp [hv4]
  · intro hsmall hempty hclen hcok
    have heq : process_csv_row row row_num ci st es res g =
        (applyUpsert es g (stripPfx st (cellD row ci.shortcut_col))
            (cellD row ci.value_col)
            (validateCategory row_num (categoryCell row ci) res).1,
          { (validateCategory row_num (categoryCell row ci) res).2 with
            imported :=
              (validateCategory row_num (categoryCell row ci) res).2.imported + 1 }) := by
      simp only [process_csv_row]
      rw [if_neg (by omega), if_neg (by omega), if_neg hempty]
    rw [heq, validateCategory_valid row_num res (by omega) hcok]

/-- Witness for C2: a fully valid headerless row `hi,msg,Fun` is upserted
with its own category and counted imported, via the last branch of the
amended theorem. -/
theorem process_csv_row_validation_policy_witness :
    process_csv_row [("hi".data), ("msg".data), ("Fun".data)] 0 ⟨false, 0, 1, some 2⟩
        ⟨1, ("!".data), 10⟩ [] ⟨0, 0, []⟩ 1 =
      (applyUpsert [] 1 ("hi".data) ("msg".data) ("Fun".data),
        { (⟨0, 0, []⟩ : ImportResults) with
          imported := (⟨0, 0, []⟩ : ImportResults).imported + 1 }) :=
  (process_csv_row_validation_policy [("hi".data), ("msg".data), ("Fun".data)] 0
    ⟨false, 0, 1, some 2⟩ ⟨1, ("!".data), 10⟩ [] ⟨0, 0, []⟩ 1
    ("hi".data) ("msg".data) ("Fun".data) (by decide) (by decide) (by decide)
    (by decide)).2.2.2 (by decide) (by decide) (by decide) (by decide)

/-- Claim C9: a data row with fewer cells than the resolved shortcut/value
columns require only records a "Not enough columns" error — neither the
imported nor the skipped counter moves and nothing is upserted — so a
one-data-row import ends with imported + skipped = 0 < 1 data row while
carrying one error. -/
theorem csv_short_row_count_gap :
    (∀ (row : List Str) (row_num : Nat) (ci : ColumnInfo) (st : ShortcutSetting)
        (es : List ShortcutEntry) (res : ImportResults) (g : Nat),
      row.length ≤ max ci.shortcut_col ci.value_col →
      process_csv_row row row_num ci st es res g =
        (es, addError res (rowTag row_num ++ ("Not enough columns".data))) ∧
      (process_csv_row row row_num ci st es res g).2.imported = res.imported ∧
      (process_csv_row row row_num ci st es res g).2.skipped = res.skipped ∧
      (process_csv_row row row_num ci st es res g).2.errors.length =
        res.errors.length + 1) ∧
    ((importOut (process_csv_import (some ⟨1, ("!".data), 10⟩)
        [[("shortcut".data), ("value".data)], [("onlyname".data)]] [] 1)).2.imported +
      (importOut (process_csv_import (some ⟨1, ("!".data), 10⟩)
        [[("shortcut".data), ("value".data)], [("onlyname".data)]] [] 1)).2.skipped < 1 ∧
      (importOut (process_csv_import (some ⟨1, ("!".data), 10⟩)
        [[("shortcut".data), ("value".data)], [("onlyname".data)]] [] 1)).2.errors.length
        = 1) := by
  constructor
  · intro row row_num ci st es res g h
    have heq : process_csv_row row row_num ci st es res g =
        (es, addError res (rowTag row_num ++ ("Not enough columns".data))) := by
      simp only [process_csv_row]
      rw [if_pos h]
    refine ⟨heq, ?_, ?_, ?_⟩ <;> rw [heq] <;> simp [addError]
  · exact ⟨by decide, by decide⟩

/-- Witness for C9: a one-cell row under positional columns records the
error and leaves both counters and the table untouched. -/
theorem csv_short_row_count_gap_witness :
    process_csv_row [("x".data)] 0 ⟨false, 0, 1, none⟩ ⟨1, ("!".data), 10⟩ []
        ⟨0, 0, []⟩ 1 =
      ([], addError ⟨0, 0, []⟩ (rowTag 0 ++ ("Not enough columns".data))) :=
  (csv_short_row_count_gap.1 [("x".data)] 0 ⟨false, 0, 1, none⟩ ⟨1, ("!".data), 10⟩
    [] ⟨0, 0, []⟩ 1 (by decide)).1

/-- Resolution of the category column as claim C4 words it: the index of
the header cell equal to "category" case-insensitively, absent when no
such header exists. -/
def categoryColByHeader (first_row : List Str) : Option Nat :=
  first_row.findIdx? (fun h => lowerStr h == ("category".data))

/-- Claim C4 counterexample: with header row `shortcut,value,notes` the
file is treated as header-bearing, no header is named "category", yet the
category column index is column 2 (the "notes" column) — it is not
resolved by header name as the claim states. -/
theorem csv_header_category_not_by_name :
    (get_csv_column_info [("shortcut".data), ("value".data), ("notes".data)]).has_headers
      = true ∧
    categoryColByHeader [("shortcut".data), ("value".data), ("notes".data)] = none ∧
    (get_csv_column_info [("shortcut".data), ("value".data), ("notes".data)]).category_col
      = some 2 ∧
    ¬ ((get_csv_column_info
        [("shortcut".data), ("value".data), ("notes".data)]).category_col =
      categoryColByHeader [("shortcut".data), ("value".data), ("notes".data)]) := by
  refine ⟨by decide, by decide, by decide, by decide⟩

/-- The "last matching header wins" view of the category scan: walking the
headers, each cell lowercasing to "category" overwrites the pending
index. -/
def lastCategoryIdx : Nat → List Str → Option Nat → Option Nat
  | _, [], c => c
  | i, h :: rest, c =>
    lastCategoryIdx (i + 1) rest
      (if lowerStr h = ("category".data) then some i else c)

lemma scanHeaders_category :
    ∀ (l : List Str) (i s v : Nat) (c : Option Nat),
      (scanHeaders i l s v c).2.2 = lastCategoryIdx i l c := by
  intro l
  induction l with
  | nil => intro i s v c; rfl
  | cons h rest ih =>
    intro i s v c
    simp only [scanHeaders, lastCategoryIdx]
    by_cases h1 : lowerStr h = ("shortcut".data)
    · rw [if_pos h1, ih, if_neg (by rw [h1]; decide)]
    · rw [if_neg h1]
      by_cases h2 : lowerStr h = ("value".data)
      · rw [if_pos h2, ih, if_neg (by rw [h2]; decide)]
      · rw [if_neg h2]
        by_cases h3 : lowerStr h = ("category".data)
        · rw [if_pos h3, ih, if_pos h3]
        · rw [if_neg h3, ih, if_neg h3]

lemma lastCategoryIdx_no_match :
    ∀ (l : List Str) (i : Nat) (c : Option Nat),
      (∀ h ∈ l, ¬ lowerStr h = ("category".data)) → lastCategoryIdx i l c = c := by
  intro l
  induction l with
  | nil => intro i c _; rfl
  | cons hd tl ih =>
    intro i c hno
    simp only [lastCategoryIdx]
    rw [if_neg (hno hd (List.mem_cons_self hd tl))]
    exact ih (i + 1) c (fun x hx => hno x (List.mem_cons_of_mem hd hx))

/-- Claim C4 (amended): a file is treated as header-bearing iff its first
two cells case-insensitively equal "shortcut" and "value"; without headers
the columns are positional (0=shortcut, 1=value, 2=category when the first
row has more than two cells) and the first row is processed as data. In
header mode the category index is the LAST header named "category" when
one exists, but when no header is named "category" it stays at the
positional default — column 2 whenever the header row has more than two
cells — rather than being absent. -/
theorem get_csv_column_info_characterization :
    ∀ (first_row : List Str), 2 ≤ first_row.length →
      (((get_csv_column_info first_row).has_headers = true) ↔
        (lowerStr (cellD first_row 0) = ("shortcut".data) ∧
          lowerStr (cellD first_row 1) = ("value".data))) ∧
      ((get_csv_column_info first_row).has_headers = false →
        get_csv_column_info first_row =
          ⟨false, 0, 1, if first_row.length > 2 then some 2 else none⟩) ∧
      ((get_csv_column_info first_row).has_headers = true →
        (get_csv_column_info first_row).category_col =
          lastCategoryIdx 0 first_row
            (if first_row.length > 2 then some 2 else none)) ∧
      ((get_csv_column_info first_row).has_headers = true →
        (∀ h ∈ first_row, ¬ lowerStr h = ("category".data)) →
        (get_csv_column_info first_row).category_col =
          (if first_row.length > 2 then some 2 else none)) ∧
      (∀ (st : ShortcutSetting) (rest : List (List Str))
          (es : List ShortcutEntry) (g : Nat),
        process_csv_import (some st) (first_row :: rest) es g =
          .ok (if (get_csv_column_info first_row).has_headers = true then
              processRows (get_csv_column_info first_row) st g rest 1 es ⟨0, 0, []⟩
            else
              processRows (get_csv_column_info first_row) st g (first_row :: rest) 0
                es ⟨0, 0, []⟩)) := by
  intro first_row hlen
  have himp : ∀ (st : ShortcutSetting) (rest : List (List Str))
      (es : List ShortcutEntry) (g : Nat),
      process_csv_import (some st) (first_row :: rest) es g =
        .ok (if (get_csv_column_info first_row).has_headers = true then
            processRows (get_csv_column_info first_row) st g rest 1 es ⟨0, 0, []⟩
          else
            processRows (get_csv_column_info first_row) st g (first_row :: rest) 0
              es ⟨0, 0, []⟩) := by
    intro st rest es g
    simp only [process_csv_import]
    rw [if_neg (by omega)]
    by_cases hh : (get_csv_column_info first_row).has_headers = true
    · rw [if_pos hh, if_pos hh]
    · rw [if_neg hh, if_neg hh]
  by_cases hcnd : (lowerStr (cellD first_row 0) = ("shortcut".data) ∧
      lowerStr (cellD first_row 1) = ("value".data))
  · have hg : get_csv_column_info first_row = ⟨true,
        (scanHeaders 0 first_row 0 1
          (if first_row.length > 2 then some 2 else none)).1,
        (scanHeaders 0 first_row 0 1
          (if first_row.length > 2 then some 2 else none)).2.1,
        (scanHeaders 0 first_row 0 1
          (if first_row.length > 2 then some 2 else none)).2.2⟩ := by
      simp only [get_csv_column_info]
      rw [if_pos hcnd]
    refine ⟨?_, ?_, ?_, ?_, himp⟩
    · rw [hg]
      exact ⟨fun _ => hcnd, fun _ => rfl⟩
    · rw [hg]
      intro hfalse
      exact absurd hfalse (by simp)
    · rw [hg]
      intro _
      exact scanHeaders_category first_row 0 0 1 _
    · rw [hg]
      intro _ hno
      exact (scanHeaders_category first_row 0 0 1 _).trans
        (lastCategoryIdx_no_match first_row 0 _ hno)
  · have hg : get_csv_column_info first_row =
        ⟨false, 0, 1, if first_row.length > 2 then some 2 else none⟩ := by
      simp only [get_csv_column_info]
      rw [if_neg hcnd]
    refine ⟨?_, ?_, ?_, ?_, himp⟩
    · rw [hg]
      constructor
      · intro h
        exact absurd h (by simp)
      · intro h
        exact absurd h hcnd
    · rw [hg]
      intro _
      rfl
    · rw [hg]
      intro h
      exact absurd h (by simp)
    · rw [hg]
      intro h
      exact absurd h (by simp)

/-- Witness for C4: on header row `shortcut,value,notes` — header-bearing,
no "category" header — the category column is the positional default,
column 2. -/
theorem get_csv_column_info_characterization_witness :
    (get_csv_column_info
      [("shortcut".data), ("value".data), ("notes".data)]).category_col =
      (if ([("shortcut".data), ("value".data), ("notes".data)] :
        List Str).length > 2 then some 2 else none) :=
  (get_csv_column_info_characterization
    [("shortcut".data), ("value".data), ("notes".data)] (by decide)).2.2.2.1
    (by decide) (by decide)

end Dozer
